import Mathlib

/-!
Shallow embedding of a TCP echo demo: a client (client.c) that connects and
sends five fixed text messages, and a server (server.c) that accepts one
connection and echoes each received buffer back until the peer disconnects,
a read error occurs, or a termination signal is observed.  System calls are
modelled by environments that supply each call's result; byte buffers are
lists of byte values; the per-process control flow is translated statement
by statement from the C sources.
-/

namespace EchoDemo

/-- Buffer size constant BUFFER_SIZE from server.c line 15 and client.c line 15. -/
def BUFFER_SIZE : Nat := 1024

/-- Message count constant NUM_MESSAGES from client.c line 16. -/
def NUM_MESSAGES : Nat := 5

/-- Backlog constant MAX_CONNECTIONS from server.c line 16. -/
def MAX_CONNECTIONS : Nat := 5

/-- Capacity argument the server passes to recv at server.c line 105. -/
def serverRecvCap : Nat := BUFFER_SIZE - 1

/-- Capacity argument the client passes to recv at client.c line 88. -/
def clientRecvCap : Nat := BUFFER_SIZE - 1

/-- Writing the bytes returned by recv into the front of a buffer; the tail
keeps its previous contents, as for a C array. -/
def writeBytes (buf bs : List Nat) : List Nat :=
  bs.take buf.length ++ buf.drop bs.length

/-- Bytes of an ASCII string, used for the client's text messages. -/
def stringBytes (s : String) : List Nat :=
  s.data.map Char.toNat

/-- Message built by snprintf at client.c line 74: the text
"Message i from client", truncated by snprintf to at most BUFFER_SIZE - 1
bytes. -/
def clientMessage (i : Nat) : List Nat :=
  (stringBytes ("Message " ++ toString i ++ " from client")).take (BUFFER_SIZE - 1)

/-- Result of one iteration's system calls in the server's echo loop
(server.c lines 103 to 125), together with the signal-delivery points of
that iteration: `sigBefore` is a signal delivered before the top-of-loop
check of the running flag, `sigDuringRecv` a signal delivered while the
recv call of this iteration is in flight.  `recvRes` is `none` for a
negative recv return and `some bs` for a return of `bs.length` bytes
(empty meaning the peer closed); `sendOk` is false when the echo send
returns a negative value. -/
structure ServerStep where
  sigBefore : Bool
  recvRes : Option (List Nat)
  sigDuringRecv : Bool
  sendOk : Bool
deriving DecidableEq

/-- Observable data of one successful pass through the server's echo loop
body: the buffer contents just after the memset (server.c line 104), the
bytes recv wrote, the buffer contents after recv, the bytes handed to the
echo send (server.c line 120), and whether that send succeeded. -/
structure SrvExchange where
  bufferBeforeRecv : List Nat
  received : List Nat
  bufferAfterRecv : List Nat
  echoed : List Nat
  echoOk : Bool
deriving DecidableEq

/-- Building the exchange record for a positive-length read of `bs`:
the buffer is zeroed by memset, recv writes `bs` over its front, and the
echo send is called with the first `bs.length` bytes of the buffer. -/
def mkSrvExchange (bs : List Nat) (ok : Bool) : SrvExchange :=
  let buf0 := List.replicate BUFFER_SIZE 0
  let buf1 := writeBytes buf0 bs
  ⟨buf0, bs, buf1, buf1.take bs.length, ok⟩

/-- Reason the server's echo loop terminated. -/
inductive ExitReason where
  | shutdown
  | peerClosed
  | recvError
  | sendError
deriving DecidableEq

/-- Outcome of running the server's echo loop on a schedule of iteration
inputs: either the loop exited for one of the four reasons, or the schedule
was exhausted while the loop was still running (`pending`).  The Nat is the
final value of message_count, the list the successful passes in order. -/
inductive ServerLoopResult where
  | pending (running : Bool) (count : Nat) (exchanges : List SrvExchange)
  | exited (reason : ExitReason) (count : Nat) (exchanges : List SrvExchange)
deriving DecidableEq

/-- Final message_count of a loop outcome. -/
def ServerLoopResult.count : ServerLoopResult → Nat
  | .pending _ c _ => c
  | .exited _ c _ => c

/-- Exchanges of a loop outcome. -/
def ServerLoopResult.exchanges : ServerLoopResult → List SrvExchange
  | .pending _ _ e => e
  | .exited _ _ e => e

/-- Exit reason of a loop outcome, when it exited. -/
def ServerLoopResult.reasonOpt : ServerLoopResult → Option ExitReason
  | .pending _ _ _ => none
  | .exited r _ _ => some r

/-- Whether the loop outcome is an exit. -/
def ServerLoopResult.isExited : ServerLoopResult → Bool
  | .pending _ _ _ => false
  | .exited _ _ _ => true

/-- Prepending one completed pass to a loop outcome: message_count goes up
by one and the exchange is recorded in front. -/
def ServerLoopResult.lift1 (ex : SrvExchange) : ServerLoopResult → ServerLoopResult
  | .pending r c exs => .pending r (c + 1) (ex :: exs)
  | .exited rsn c exs => .exited rsn (c + 1) (ex :: exs)

/-- Prepending a list of completed passes to a loop outcome. -/
def ServerLoopResult.liftMany (exs : List SrvExchange) : ServerLoopResult → ServerLoopResult
  | .pending r c e => .pending r (exs.length + c) (exs ++ e)
  | .exited rsn c e => .exited rsn (exs.length + c) (exs ++ e)

/-- Echo loop of server.c lines 103 to 125.  The running flag (the
volatile `running` of server.c line 18, cleared by signal_handler) is
checked at the top of each iteration; a signal delivered during a recv
call only clears the flag, so that iteration still completes in full.  A
zero-length read, a negative read, and a negative send each break out of
the loop; message_count is incremented after each positive-length read,
before the echo send. -/
def serverLoop : Bool → List ServerStep → ServerLoopResult
  | false, _ => .exited .shutdown 0 []
  | true, [] => .pending true 0 []
  | true, s :: rest =>
    if s.sigBefore then .exited .shutdown 0 []
    else
      match s.recvRes with
      | none => .exited .recvError 0 []
      | some [] => .exited .peerClosed 0 []
      | some (b :: tl) =>
        if s.sendOk then
          (serverLoop (!s.sigDuringRecv) rest).lift1 (mkSrvExchange (b :: tl) true)
        else .exited .sendError 1 [mkSrvExchange (b :: tl) false]

/-- Results of the server's startup system calls (server.c lines 36 to 96)
and the schedule of echo-loop iterations. -/
structure ServerEnv where
  argc : Nat
  socketRet : Int
  setsockoptRet : Int
  bindRet : Int
  listenRet : Int
  acceptRet : Int
  steps : List ServerStep

/-- Observable outcome of the server process: its exit code (none while the
loop is still pending), which sockets were closed, the message count the
statistics block printed (server.c line 129), and the echo-loop outcome. -/
structure ServerOutcome where
  exitCode : Option Nat
  closedServerFd : Bool
  closedClientFd : Bool
  statsPrinted : Option Nat
  loopRes : Option ServerLoopResult
deriving DecidableEq

/-- Main routine of server.c: argument check, socket, setsockopt, bind,
listen, accept, each failure returning 1 (closing the listening socket
where the source does), then the echo loop followed by the statistics
print, both closes, and return 0. -/
def serverMain (env : ServerEnv) : ServerOutcome :=
  if env.argc ≠ 2 then ⟨some 1, false, false, none, none⟩
  else if env.socketRet < 0 then ⟨some 1, false, false, none, none⟩
  else if env.setsockoptRet < 0 then ⟨some 1, true, false, none, none⟩
  else if env.bindRet < 0 then ⟨some 1, true, false, none, none⟩
  else if env.listenRet < 0 then ⟨some 1, true, false, none, none⟩
  else if env.acceptRet < 0 then ⟨some 1, true, false, none, none⟩
  else
    match serverLoop true env.steps with
    | .pending r c exs => ⟨none, false, false, none, some (.pending r c exs)⟩
    | .exited rsn c exs => ⟨some 0, true, true, some c, some (.exited rsn c exs)⟩

/-- Results of the two system calls of one client loop iteration
(client.c lines 79 and 88): `sendRes` is `none` for a negative send return
and `some k` for a return of k; `recvRes` is `none` for a negative recv
return and `some bs` for a return of `bs.length` bytes. -/
structure ClientStep where
  sendRes : Option Nat
  recvRes : Option (List Nat)
deriving DecidableEq

/-- Observable data of one completed client exchange: the loop index, the
message bytes sent, the send return value printed, the buffer contents
after the memset of client.c line 87 and after the recv, and the bytes
recv wrote. -/
structure CliExchange where
  idx : Nat
  message : List Nat
  sentRet : Nat
  bufferBeforeRecv : List Nat
  bufferAfterRecv : List Nat
  received : List Nat
deriving DecidableEq

/-- Building the exchange record of client loop iteration `i`. -/
def mkCliExchange (i sentRet : Nat) (bs : List Nat) : CliExchange :=
  let buf0 := List.replicate BUFFER_SIZE 0
  let buf1 := writeBytes buf0 bs
  ⟨i, clientMessage i, sentRet, buf0, buf1, bs⟩

/-- Outcome of the client message loop: the final value of the loop
variable i (whose predecessor the summary prints at client.c line 101),
the number of send calls attempted, and the completed exchanges in
order. -/
structure ClientLoopResult where
  finalI : Nat
  sends : Nat
  exchanges : List CliExchange
deriving DecidableEq

/-- Message loop of client.c lines 72 to 97, as a recursion on the number
of remaining iterations (i runs from 1 while i ≤ NUM_MESSAGES).  A negative
send return or a negative recv return breaks out of the loop; a zero-length
recv does not. -/
def clientLoopAux (env : Nat → ClientStep) : Nat → Nat → ClientLoopResult
  | i, 0 => ⟨i, 0, []⟩
  | i, r + 1 =>
    match (env i).sendRes with
    | none => ⟨i, 1, []⟩
    | some k =>
      match (env i).recvRes with
      | none => ⟨i, 1, []⟩
      | some bs =>
        let res := clientLoopAux env (i + 1) r
        ⟨res.finalI, res.sends + 1, mkCliExchange i k bs :: res.exchanges⟩

/-- The client's message loop started at i = 1 for NUM_MESSAGES iterations. -/
def clientLoop (env : Nat → ClientStep) : ClientLoopResult :=
  clientLoopAux env 1 NUM_MESSAGES

/-- Results of the client's startup steps (client.c lines 30 to 68) and
the per-iteration system-call results of its message loop. -/
structure ClientEnv where
  argc : Nat
  resolveOk : Bool
  socketRet : Int
  connectRet : Int
  steps : Nat → ClientStep

/-- Observable outcome of the client process: exit code, number of send
calls attempted, completed exchanges, the count the summary printed, and
whether the socket was closed. -/
structure ClientOutcome where
  exitCode : Nat
  sends : Nat
  exchanges : List CliExchange
  summaryPrinted : Option Nat
  closedSock : Bool

/-- Main routine of client.c: argument check, hostname resolution, socket
creation and connect, each failure returning 1 (connect failure closing
the socket first, client.c lines 64 to 68), then the message loop, the
summary print of i - 1, the close, and return 0. -/
def clientMain (env : ClientEnv) : ClientOutcome :=
  if env.argc ≠ 3 then ⟨1, 0, [], none, false⟩
  else if env.resolveOk = false then ⟨1, 0, [], none, false⟩
  else if env.socketRet < 0 then ⟨1, 0, [], none, false⟩
  else if env.connectRet < 0 then ⟨1, 0, [], none, true⟩
  else
    let res := clientLoop env.steps
    ⟨0, res.sends, res.exchanges, some (res.finalI - 1), true⟩

/-! Auxiliary predicates and concrete instances used by the theorems. -/

/-- Well-formedness of one recv result for the server: the operating system
never returns more bytes than the capacity the call asked for. -/
def WFServerStep (s : ServerStep) : Prop :=
  match s.recvRes with
  | none => True
  | some bs => bs.length ≤ serverRecvCap

/-- Well-formedness of a whole server schedule. -/
def WFServerSteps (steps : List ServerStep) : Prop :=
  ∀ s ∈ steps, WFServerStep s

/-- Well-formedness of one recv result for the client. -/
def WFClientStep (s : ClientStep) : Prop :=
  match s.recvRes with
  | none => True
  | some bs => bs.length ≤ clientRecvCap

/-- Well-formedness of a client environment. -/
def WFClientEnv (env : Nat → ClientStep) : Prop :=
  ∀ i, WFClientStep (env i)

instance (s : ServerStep) : Decidable (WFServerStep s) :=
  match h : s.recvRes with
  | none => .isTrue (by simp [WFServerStep, h])
  | some bs => decidable_of_iff (bs.length ≤ serverRecvCap) (by simp [WFServerStep, h])

instance (s : ClientStep) : Decidable (WFClientStep s) :=
  match h : s.recvRes with
  | none => .isTrue (by simp [WFClientStep, h])
  | some bs => decidable_of_iff (bs.length ≤ clientRecvCap) (by simp [WFClientStep, h])

instance (steps : List ServerStep) : Decidable (WFServerSteps steps) := by
  unfold WFServerSteps; infer_instance

/-- Bytes delivered by a step's recv, empty when the recv failed. -/
def stepBytes (s : ServerStep) : List Nat :=
  s.recvRes.getD []

/-- Iteration input on which the server's echo loop keeps looping: no
signal delivered, a positive-length read, and a successful echo send. -/
def ContinueStep (s : ServerStep) : Prop :=
  s.sigBefore = false ∧ s.sigDuringRecv = false ∧ s.sendOk = true ∧
    s.recvRes ≠ none ∧ s.recvRes ≠ some []

instance (s : ServerStep) : Decidable (ContinueStep s) := by
  unfold ContinueStep; infer_instance

/-- Exchange records produced by a schedule of continuing steps. -/
def contExs (pre : List ServerStep) : List SrvExchange :=
  pre.map (fun s => mkSrvExchange (stepBytes s) s.sendOk)

/-- Number of passes of a loop outcome whose echo send succeeded. -/
def srvSuccessCount (r : ServerLoopResult) : Nat :=
  (r.exchanges.filter (fun e => e.echoOk)).length

/-- Successful startup of the server: correct argument count and
non-negative returns from socket, setsockopt, bind, listen and accept. -/
def serverStartupOk (env : ServerEnv) : Prop :=
  env.argc = 2 ∧ ¬env.socketRet < 0 ∧ ¬env.setsockoptRet < 0 ∧
    ¬env.bindRet < 0 ∧ ¬env.listenRet < 0 ∧ ¬env.acceptRet < 0

/-- Startup failure condition of the client, the disjunction of the four
checks of client.c lines 30 to 68. -/
def clientStartupFail (env : ClientEnv) : Prop :=
  env.argc ≠ 3 ∨ env.resolveOk = false ∨ env.socketRet < 0 ∨ env.connectRet < 0

/-- Client loop iteration whose send and recv both returned non-negative
values (a zero-length recv included). -/
def StepOkW (env : Nat → ClientStep) (i : Nat) : Prop :=
  (env i).sendRes ≠ none ∧ (env i).recvRes ≠ none

/-- Client loop iteration that breaks the loop: a negative send return, or
a negative recv return. -/
def StepFails (env : Nat → ClientStep) (i : Nat) : Prop :=
  (env i).sendRes = none ∨ (env i).recvRes = none

instance (env : Nat → ClientStep) (i : Nat) : Decidable (StepOkW env i) := by
  unfold StepOkW; infer_instance

instance (env : Nat → ClientStep) (i : Nat) : Decidable (StepFails env i) := by
  unfold StepFails; infer_instance

instance (env : ServerEnv) : Decidable (serverStartupOk env) := by
  unfold serverStartupOk; infer_instance

instance (env : ClientEnv) : Decidable (clientStartupFail env) := by
  unfold clientStartupFail; infer_instance

/-- Server schedule a correctly delivering client produces: each iteration
receives exactly the bytes of the i-th client message and the echo send
succeeds. -/
def echoServerSteps : List ServerStep :=
  (List.range' 1 NUM_MESSAGES).map (fun i => ⟨false, some (clientMessage i), false, true⟩)

/-- The server's echo loop run against the five client messages. -/
def echoServerRun : ServerLoopResult :=
  serverLoop true echoServerSteps

/-- Client environment whose replies are exactly what the echo server sent
back for the five messages: the composition of the two processes over a
correctly delivering connection. -/
def composedEnv : Nat → ClientStep := fun i =>
  ⟨some (clientMessage i).length,
   some ((echoServerRun.exchanges.map SrvExchange.echoed).getD (i - 1) [])⟩

/-- The client's message loop run against the composed echo replies. -/
def composedRun : ClientLoopResult :=
  clientLoop composedEnv

/-- Server iteration reading the two bytes "hi" with a successful echo. -/
def stepHi : ServerStep := ⟨false, some [104, 105], false, true⟩

/-- Server iteration on which the peer has closed (zero-length read). -/
def stepClose : ServerStep := ⟨false, some [], false, true⟩

/-- Server iteration on which recv fails. -/
def stepRdErr : ServerStep := ⟨false, none, false, true⟩

/-- Server iteration that reads one byte and then fails to echo it. -/
def stepSendFailA : ServerStep := ⟨false, some [65], false, false⟩

/-- Server iteration that reads two bytes and then fails to echo them. -/
def stepSendFailB : ServerStep := ⟨false, some [66, 67], false, false⟩

/-- Server iteration during whose in-flight read a signal is delivered;
the read itself returns one byte and the echo succeeds. -/
def stepSigRead : ServerStep := ⟨false, some [120], true, true⟩

/-- Server environment with successful startup whose third loop iteration
would fail, but whose second iteration observes a signal mid-read. -/
def srvEnvSig : ServerEnv := ⟨2, 0, 0, 0, 0, 0, [stepHi, stepSigRead, stepRdErr]⟩

/-- Server environment with successful startup whose peer closes after one
message. -/
def srvEnvClose : ServerEnv := ⟨2, 0, 0, 0, 0, 0, [stepHi, stepClose]⟩

/-- Server environment whose bind call fails. -/
def srvEnvBindFail : ServerEnv := ⟨2, 0, 0, -1, 0, 0, [stepHi]⟩

/-- Client environment steps on which every exchange succeeds and each
reply echoes the message. -/
def cliStepsOk : Nat → ClientStep := fun i =>
  ⟨some (clientMessage i).length, some (clientMessage i)⟩

/-- Client environment steps on which the third send fails. -/
def cliStepsFail3 : Nat → ClientStep := fun i =>
  if i = 3 then ⟨none, some (clientMessage i)⟩ else cliStepsOk i

/-- Client environment steps on which the second recv returns zero bytes
and everything else succeeds. -/
def cliStepsEmpty2 : Nat → ClientStep := fun i =>
  if i = 2 then ⟨some (clientMessage 2).length, some []⟩ else cliStepsOk i

/-- Client environment whose connect call fails. -/
def cliEnvConnFail : ClientEnv := ⟨3, true, 0, -1, cliStepsOk⟩

/-- Client environment with successful startup whose third send fails
mid-loop. -/
def cliEnvMidFail : ClientEnv := ⟨3, true, 0, 0, cliStepsFail3⟩

/-! Unfolding and shape lemmas for the server model. -/

theorem writeBytes_replicate (bs : List Nat) (n : Nat) (h : bs.length ≤ n) :
    writeBytes (List.replicate n 0) bs = bs ++ List.replicate (n - bs.length) 0 := by
  simp [writeBytes, List.take_of_length_le h, List.drop_replicate]

theorem mkSrvExchange_received (bs : List Nat) (ok : Bool) :
    (mkSrvExchange bs ok).received = bs := rfl

theorem mkSrvExchange_beforeBuf (bs : List Nat) (ok : Bool) :
    (mkSrvExchange bs ok).bufferBeforeRecv = List.replicate BUFFER_SIZE 0 := rfl

theorem mkSrvExchange_echoOk (bs : List Nat) (ok : Bool) :
    (mkSrvExchange bs ok).echoOk = ok := rfl

theorem mkSrvExchange_afterBuf (bs : List Nat) (ok : Bool) (h : bs.length ≤ BUFFER_SIZE) :
    (mkSrvExchange bs ok).bufferAfterRecv
      = bs ++ List.replicate (BUFFER_SIZE - bs.length) 0 := by
  simp [mkSrvExchange, writeBytes_replicate bs BUFFER_SIZE h]

theorem mkSrvExchange_echoed (bs : List Nat) (ok : Bool) (h : bs.length ≤ BUFFER_SIZE) :
    (mkSrvExchange bs ok).echoed = bs := by
  have hw := writeBytes_replicate bs BUFFER_SIZE h
  simp [mkSrvExchange, hw, List.take_left]

theorem serverLoop_false (steps : List ServerStep) :
    serverLoop false steps = .exited .shutdown 0 [] := by
  cases steps <;> rfl

theorem serverLoop_true_nil : serverLoop true [] = .pending true 0 [] := rfl

theorem serverLoop_cons_sig (s : ServerStep) (rest : List ServerStep)
    (h : s.sigBefore = true) :
    serverLoop true (s :: rest) = .exited .shutdown 0 [] := by
  simp [serverLoop, h]

theorem serverLoop_cons_recvErr (s : ServerStep) (rest : List ServerStep)
    (h1 : s.sigBefore = false) (h2 : s.recvRes = none) :
    serverLoop true (s :: rest) = .exited .recvError 0 [] := by
  simp [serverLoop, h1, h2]

theorem serverLoop_cons_closed (s : ServerStep) (rest : List ServerStep)
    (h1 : s.sigBefore = false) (h2 : s.recvRes = some []) :
    serverLoop true (s :: rest) = .exited .peerClosed 0 [] := by
  simp [serverLoop, h1, h2]

theorem serverLoop_cons_sendFail (s : ServerStep) (rest : List ServerStep)
    (b : Nat) (tl : List Nat) (h1 : s.sigBefore = false)
    (h2 : s.recvRes = some (b :: tl)) (h3 : s.sendOk = false) :
    serverLoop true (s :: rest) = .exited .sendError 1 [mkSrvExchange (b :: tl) false] := by
  simp [serverLoop, h1, h2, h3]

theorem serverLoop_cons_cont (s : ServerStep) (rest : List ServerStep)
    (b : Nat) (tl : List Nat) (h1 : s.sigBefore = false)
    (h2 : s.recvRes = some (b :: tl)) (h3 : s.sendOk = true) :
    serverLoop true (s :: rest)
      = (serverLoop (!s.sigDuringRecv) rest).lift1 (mkSrvExchange (b :: tl) true) := by
  simp [serverLoop, h1, h2, h3]

theorem lift1_exchanges (ex : SrvExchange) (r : ServerLoopResult) :
    (r.lift1 ex).exchanges = ex :: r.exchanges := by
  cases r <;> rfl

theorem lift1_count (ex : SrvExchange) (r : ServerLoopResult) :
    (r.lift1 ex).count = r.count + 1 := by
  cases r <;> rfl

theorem lift1_isExited (ex : SrvExchange) (r : ServerLoopResult) :
    (r.lift1 ex).isExited = r.isExited := by
  cases r <;> rfl

theorem liftMany_nil (r : ServerLoopResult) :
    r.liftMany [] = r := by
  cases r <;> simp [ServerLoopResult.liftMany]

theorem liftMany_cons (ex : SrvExchange) (exs : List SrvExchange) (r : ServerLoopResult) :
    r.liftMany (ex :: exs) = (r.liftMany exs).lift1 ex := by
  cases r <;> simp [ServerLoopResult.liftMany, ServerLoopResult.lift1] <;> omega

theorem continueStep_recv_shape {s : ServerStep} (h : ContinueStep s) :
    ∃ b tl, s.recvRes = some (b :: tl) := by
  obtain ⟨-, -, -, h4, h5⟩ := h
  cases hr : s.recvRes with
  | none => exact absurd hr h4
  | some bs =>
    cases bs with
    | nil => exact absurd hr h5
    | cons b tl => exact ⟨b, tl, rfl⟩

theorem serverLoop_append_cont (pre rest : List ServerStep)
    (h : ∀ t ∈ pre, ContinueStep t) :
    serverLoop true (pre ++ rest) = (serverLoop true rest).liftMany (contExs pre) := by
  induction pre with
  | nil => simp [contExs, liftMany_nil]
  | cons s pre ih =>
    have hs := h s (by simp)
    obtain ⟨b, tl, hr⟩ := continueStep_recv_shape hs
    have h1 : s.sigBefore = false := hs.1
    have hd : s.sigDuringRecv = false := hs.2.1
    have h3 : s.sendOk = true := hs.2.2.1
    rw [List.cons_append, serverLoop_cons_cont s (pre ++ rest) b tl h1 hr h3, hd]
    simp only [Bool.not_false]
    rw [ih (fun t ht => h t (by simp [ht]))]
    have hx : contExs (s :: pre) = mkSrvExchange (b :: tl) true :: contExs pre := by
      simp [contExs, stepBytes, hr, h3]
    rw [hx, liftMany_cons]

theorem serverLoop_all_cont (steps : List ServerStep)
    (h : ∀ t ∈ steps, ContinueStep t) :
    serverLoop true steps = .pending true steps.length (contExs steps) := by
  have happ := serverLoop_append_cont steps [] h
  rw [List.append_nil] at happ
  rw [happ, serverLoop_true_nil]
  simp [ServerLoopResult.liftMany, contExs]

theorem serverLoop_count_eq (running : Bool) (steps : List ServerStep) :
    (serverLoop running steps).count = (serverLoop running steps).exchanges.length := by
  induction steps generalizing running with
  | nil => cases running <;> rfl
  | cons s rest ih =>
    cases running with
    | false => rfl
    | true =>
      by_cases h1 : s.sigBefore = true
      · rw [serverLoop_cons_sig s rest h1]; rfl
      · have h1f : s.sigBefore = false := by simpa using h1
        cases hr : s.recvRes with
        | none => rw [serverLoop_cons_recvErr s rest h1f hr]; rfl
        | some bs =>
          cases bs with
          | nil => rw [serverLoop_cons_closed s rest h1f hr]; rfl
          | cons b tl =>
            by_cases h3 : s.sendOk = true
            · rw [serverLoop_cons_cont s rest b tl h1f hr h3,
                lift1_count, lift1_exchanges]
              simp [ih]
            · have h3f : s.sendOk = false := by simpa using h3
              rw [serverLoop_cons_sendFail s rest b tl h1f hr h3f]; rfl

theorem serverLoop_exchanges_shape (running : Bool) (steps : List ServerStep)
    (hWF : WFServerSteps steps) :
    ∀ e ∈ (serverLoop running steps).exchanges,
      e.bufferBeforeRecv = List.replicate BUFFER_SIZE 0 ∧
      e.bufferAfterRecv = e.received ++ List.replicate (BUFFER_SIZE - e.received.length) 0 ∧
      e.echoed = e.received ∧ e.received.length ≤ serverRecvCap := by
  induction steps generalizing running with
  | nil => cases running <;> simp [serverLoop, ServerLoopResult.exchanges]
  | cons s rest ih =>
    cases running with
    | false => simp [serverLoop_false, ServerLoopResult.exchanges]
    | true =>
      by_cases h1 : s.sigBefore = true
      · rw [serverLoop_cons_sig s rest h1]; simp [ServerLoopResult.exchanges]
      · have h1f : s.sigBefore = false := by simpa using h1
        cases hr : s.recvRes with
        | none =>
          rw [serverLoop_cons_recvErr s rest h1f hr]
          simp [ServerLoopResult.exchanges]
        | some bs =>
          have hlen : bs.length ≤ serverRecvCap := by
            have := hWF s (by simp)
            simpa [WFServerStep, hr] using this
          have hlenB : bs.length ≤ BUFFER_SIZE := by
            refine le_trans hlen ?_
            simp [serverRecvCap]
          cases bs with
          | nil => rw [serverLoop_cons_closed s rest h1f hr]; simp [ServerLoopResult.exchanges]
          | cons b tl =>
            have hrest : WFServerSteps rest := fun t ht => hWF t (by simp [ht])
            by_cases h3 : s.sendOk = true
            · rw [serverLoop_cons_cont s rest b tl h1f hr h3, lift1_exchanges]
              intro e he
              rcases List.mem_cons.mp he with he | he
              · subst he
                refine ⟨mkSrvExchange_beforeBuf _ _, ?_, ?_, ?_⟩
                · rw [mkSrvExchange_received, mkSrvExchange_afterBuf _ _ hlenB]
                · rw [mkSrvExchange_received, mkSrvExchange_echoed _ _ hlenB]
                · rw [mkSrvExchange_received]; exact hlen
              · exact ih (!s.sigDuringRecv) hrest e he
            · have h3f : s.sendOk = false := by simpa using h3
              rw [serverLoop_cons_sendFail s rest b tl h1f hr h3f]
              intro e he
              rcases List.mem_singleton.mp he with rfl
              refine ⟨mkSrvExchange_beforeBuf _ _, ?_, ?_, ?_⟩
              · rw [mkSrvExchange_received, mkSrvExchange_afterBuf _ _ hlenB]
              · rw [mkSrvExchange_received, mkSrvExchange_echoed _ _ hlenB]
              · rw [mkSrvExchange_received]; exact hlen

/-! Unfolding and shape lemmas for the client model. -/

theorem mkCliExchange_idx (i k : Nat) (bs : List Nat) :
    (mkCliExchange i k bs).idx = i := rfl

theorem mkCliExchange_message (i k : Nat) (bs : List Nat) :
    (mkCliExchange i k bs).message = clientMessage i := rfl

theorem mkCliExchange_received (i k : Nat) (bs : List Nat) :
    (mkCliExchange i k bs).received = bs := rfl

theorem mkCliExchange_beforeBuf (i k : Nat) (bs : List Nat) :
    (mkCliExchange i k bs).bufferBeforeRecv = List.replicate BUFFER_SIZE 0 := rfl

theorem mkCliExchange_afterBuf (i k : Nat) (bs : List Nat) (h : bs.length ≤ BUFFER_SIZE) :
    (mkCliExchange i k bs).bufferAfterRecv
      = bs ++ List.replicate (BUFFER_SIZE - bs.length) 0 := by
  simp [mkCliExchange, writeBytes_replicate bs BUFFER_SIZE h]

theorem clientLoopAux_zero (env : Nat → ClientStep) (i : Nat) :
    clientLoopAux env i 0 = ⟨i, 0, []⟩ := rfl

theorem clientLoopAux_sendFail (env : Nat → ClientStep) (i r : Nat)
    (h : (env i).sendRes = none) :
    clientLoopAux env i (r + 1) = ⟨i, 1, []⟩ := by
  simp [clientLoopAux, h]

theorem clientLoopAux_recvFail (env : Nat → ClientStep) (i r k : Nat)
    (h1 : (env i).sendRes = some k) (h2 : (env i).recvRes = none) :
    clientLoopAux env i (r + 1) = ⟨i, 1, []⟩ := by
  simp [clientLoopAux, h1, h2]

theorem clientLoopAux_ok (env : Nat → ClientStep) (i r k : Nat) (bs : List Nat)
    (h1 : (env i).sendRes = some k) (h2 : (env i).recvRes = some bs) :
    clientLoopAux env i (r + 1)
      = ⟨(clientLoopAux env (i + 1) r).finalI,
         (clientLoopAux env (i + 1) r).sends + 1,
         mkCliExchange i k bs :: (clientLoopAux env (i + 1) r).exchanges⟩ := by
  simp [clientLoopAux, h1, h2]

theorem clientLoopAux_finalI (env : Nat → ClientStep) :
    ∀ r i, (clientLoopAux env i r).finalI = i + (clientLoopAux env i r).exchanges.length := by
  intro r
  induction r with
  | zero => intro i; rfl
  | succ r ih =>
    intro i
    cases h1 : (env i).sendRes with
    | none => rw [clientLoopAux_sendFail env i r h1]; rfl
    | some k =>
      cases h2 : (env i).recvRes with
      | none => rw [clientLoopAux_recvFail env i r k h1 h2]; rfl
      | some bs =>
        rw [clientLoopAux_ok env i r k bs h1 h2]
        have := ih (i + 1)
        simp only [List.length_cons]
        omega

theorem clientLoopAux_idx_map (env : Nat → ClientStep) :
    ∀ r i, (clientLoopAux env i r).exchanges.map CliExchange.idx
      = List.range' i (clientLoopAux env i r).exchanges.length := by
  intro r
  induction r with
  | zero => intro i; rfl
  | succ r ih =>
    intro i
    cases h1 : (env i).sendRes with
    | none => rw [clientLoopAux_sendFail env i r h1]; rfl
    | some k =>
      cases h2 : (env i).recvRes with
      | none => rw [clientLoopAux_recvFail env i r k h1 h2]; rfl
      | some bs =>
        rw [clientLoopAux_ok env i r k bs h1 h2]
        simp only [List.map_cons, mkCliExchange_idx, List.length_cons, List.range'_succ]
        rw [ih (i + 1)]

theorem clientLoopAux_exchanges_shape (env : Nat → ClientStep) :
    ∀ r i, ∀ e ∈ (clientLoopAux env i r).exchanges,
      ∃ j k bs, i ≤ j ∧ j < i + r ∧ (env j).sendRes = some k ∧
        (env j).recvRes = some bs ∧ e = mkCliExchange j k bs := by
  intro r
  induction r with
  | zero => intro i e he; simp [clientLoopAux_zero] at he
  | succ r ih =>
    intro i e he
    cases h1 : (env i).sendRes with
    | none => rw [clientLoopAux_sendFail env i r h1] at he; simp at he
    | some k =>
      cases h2 : (env i).recvRes with
      | none => rw [clientLoopAux_recvFail env i r k h1 h2] at he; simp at he
      | some bs =>
        rw [clientLoopAux_ok env i r k bs h1 h2] at he
        rcases List.mem_cons.mp he with rfl | he
        · exact ⟨i, k, bs, le_refl i, by omega, h1, h2, rfl⟩
        · obtain ⟨j, k2, bs2, hij, hjr, hs, hrc, hee⟩ := ih (i + 1) e he
          exact ⟨j, k2, bs2, by omega, by omega, hs, hrc, hee⟩

theorem clientLoopAux_all_ok (env : Nat → ClientStep) :
    ∀ r i, (∀ j, i ≤ j → j < i + r → StepOkW env j) →
      (clientLoopAux env i r).exchanges.length = r := by
  intro r
  induction r with
  | zero => intro i _; rfl
  | succ r ih =>
    intro i h
    have hok := h i (le_refl i) (by omega)
    obtain ⟨hs, hr⟩ := hok
    cases h1 : (env i).sendRes with
    | none => exact absurd h1 hs
    | some k =>
      cases h2 : (env i).recvRes with
      | none => exact absurd h2 hr
      | some bs =>
        rw [clientLoopAux_ok env i r k bs h1 h2]
        simp only [List.length_cons]
        rw [ih (i + 1) (fun j hj1 hj2 => h j (by omega) (by omega))]

theorem clientLoopAux_stop_fail (env : Nat → ClientStep) :
    ∀ r i, (clientLoopAux env i r).exchanges.length < r →
      StepFails env (i + (clientLoopAux env i r).exchanges.length) := by
  intro r
  induction r with
  | zero => intro i h; omega
  | succ r ih =>
    intro i h
    cases h1 : (env i).sendRes with
    | none =>
      rw [clientLoopAux_sendFail env i r h1]
      exact Or.inl h1
    | some k =>
      cases h2 : (env i).recvRes with
      | none =>
        rw [clientLoopAux_recvFail env i r k h1 h2]
        exact Or.inr h2
      | some bs =>
        rw [clientLoopAux_ok env i r k bs h1 h2] at h ⊢
        simp only [List.length_cons] at h ⊢
        have := ih (i + 1) (by omega)
        have harith : i + 1 + (clientLoopAux env (i + 1) r).exchanges.length
            = i + ((clientLoopAux env (i + 1) r).exchanges.length + 1) := by omega
        rwa [harith] at this

theorem clientLoopAux_first_fail (env : Nat → ClientStep) :
    ∀ r i m, i ≤ m → m < i + r → (∀ j, i ≤ j → j < m → StepOkW env j) →
      StepFails env m → (clientLoopAux env i r).exchanges.length = m - i := by
  intro r
  induction r with
  | zero => intro i m h1 h2 _ _; omega
  | succ r ih =>
    intro i m hm1 hm2 hok hf
    by_cases him : i = m
    · subst him
      rcases hf with hf | hf
      · rw [clientLoopAux_sendFail env i r hf]; simp
      · cases h1 : (env i).sendRes with
        | none => rw [clientLoopAux_sendFail env i r h1]; simp
        | some k => rw [clientLoopAux_recvFail env i r k h1 hf]; simp
    · have hlt : i < m := by omega
      have hoki := hok i (le_refl i) hlt
      obtain ⟨hs, hr⟩ := hoki
      cases h1 : (env i).sendRes with
      | none => exact absurd h1 hs
      | some k =>
        cases h2 : (env i).recvRes with
        | none => exact absurd h2 hr
        | some bs =>
          rw [clientLoopAux_ok env i r k bs h1 h2]
          simp only [List.length_cons]
          have := ih (i + 1) m (by omega) (by omega)
            (fun j hj1 hj2 => hok j (by omega) hj2) hf
          omega

/-! Lemmas about the two main routines and concrete environments. -/

theorem liftMany_exited (exs : List SrvExchange) (rsn : ExitReason) (c : Nat)
    (e : List SrvExchange) :
    (ServerLoopResult.exited rsn c e).liftMany exs = .exited rsn (exs.length + c) (exs ++ e) :=
  rfl

theorem serverMain_exited (env : ServerEnv) (h : serverStartupOk env)
    (rsn : ExitReason) (c : Nat) (exs : List SrvExchange)
    (hl : serverLoop true env.steps = .exited rsn c exs) :
    serverMain env = ⟨some 0, true, true, some c, some (.exited rsn c exs)⟩ := by
  obtain ⟨h1, h2, h3, h4, h5, h6⟩ := h
  simp [serverMain, h1, h2, h3, h4, h5, h6, hl]

theorem serverMain_pending (env : ServerEnv) (h : serverStartupOk env)
    (r : Bool) (c : Nat) (exs : List SrvExchange)
    (hl : serverLoop true env.steps = .pending r c exs) :
    serverMain env = ⟨none, false, false, none, some (.pending r c exs)⟩ := by
  obtain ⟨h1, h2, h3, h4, h5, h6⟩ := h
  simp [serverMain, h1, h2, h3, h4, h5, h6, hl]

theorem clientMessage_length_le (i : Nat) :
    (clientMessage i).length ≤ clientRecvCap := by
  simp [clientMessage, clientRecvCap]

theorem cliStepsOk_WF : WFClientEnv cliStepsOk := by
  intro i
  show (clientMessage i).length ≤ clientRecvCap
  exact clientMessage_length_le i

/-! Claim theorems. -/

set_option maxRecDepth 200000 in
/-- Claim C1: every positive-length read of the server's echo loop is
answered by a send of exactly the bytes read, byte-identical and of the
same length; consequently the client composed with the correctly behaving
echo server receives back, in order, exactly the five messages it sent. -/
theorem C1_echo_byte_identical :
    (∀ (running : Bool) (steps : List ServerStep), WFServerSteps steps →
      ∀ e ∈ (serverLoop running steps).exchanges,
        e.echoed = e.received ∧ e.echoed.length = e.received.length) ∧
    composedRun.exchanges.map CliExchange.received
      = (List.range' 1 NUM_MESSAGES).map clientMessage ∧
    composedRun.exchanges.map CliExchange.message
      = (List.range' 1 NUM_MESSAGES).map clientMessage := by
  refine ⟨?_, by decide, by decide⟩
  intro running steps hWF e he
  have h := serverLoop_exchanges_shape running steps hWF e he
  exact ⟨h.2.2.1, by rw [h.2.2.1]⟩

set_option maxRecDepth 200000 in
/-- Witness for C1: the two bytes read in stepHi are echoed unchanged. -/
theorem C1_witness :
    (mkSrvExchange [104, 105] true).echoed = (mkSrvExchange [104, 105] true).received ∧
    (mkSrvExchange [104, 105] true).echoed.length
      = (mkSrvExchange [104, 105] true).received.length :=
  C1_echo_byte_identical.1 true [stepHi] (by decide)
    (mkSrvExchange [104, 105] true) (by decide)

/-- Claim C2: the client's exchanges carry ascending indices starting at 1,
message i is the text "Message i from client", all NUM_MESSAGES exchanges
complete when every send and recv succeeds, the loop stops at the first
send or receive failure with no retry, and the end-of-run summary prints
exactly the number of completed exchanges. -/
theorem C2_client_message_loop :
    ∀ env : Nat → ClientStep,
      (clientLoop env).exchanges.map CliExchange.idx
          = List.range' 1 (clientLoop env).exchanges.length ∧
      (∀ e ∈ (clientLoop env).exchanges, e.message = clientMessage e.idx) ∧
      (clientLoop env).finalI = 1 + (clientLoop env).exchanges.length ∧
      ((∀ j, 1 ≤ j → j ≤ NUM_MESSAGES → StepOkW env j) →
          (clientLoop env).exchanges.length = NUM_MESSAGES) ∧
      ((clientLoop env).exchanges.length < NUM_MESSAGES →
          StepFails env (1 + (clientLoop env).exchanges.length)) ∧
      (∀ m, 1 ≤ m → m ≤ NUM_MESSAGES → (∀ j, 1 ≤ j → j < m → StepOkW env j) →
          StepFails env m → (clientLoop env).exchanges.length = m - 1) ∧
      (∀ cenv : ClientEnv, cenv.steps = env → ¬ clientStartupFail cenv →
          (clientMain cenv).summaryPrinted = some (clientLoop env).exchanges.length) := by
  intro env
  refine ⟨clientLoopAux_idx_map env NUM_MESSAGES 1, ?_, ?_, ?_, ?_, ?_, ?_⟩
  · intro e he
    obtain ⟨j, k, bs, -, -, -, -, rfl⟩ :=
      clientLoopAux_exchanges_shape env NUM_MESSAGES 1 e he
    rfl
  · exact clientLoopAux_finalI env NUM_MESSAGES 1
  · intro h
    exact clientLoopAux_all_ok env NUM_MESSAGES 1 (fun j h1 h2 => h j h1 (by omega))
  · intro h
    exact clientLoopAux_stop_fail env NUM_MESSAGES 1 h
  · intro m h1 h2 hok hf
    exact clientLoopAux_first_fail env NUM_MESSAGES 1 m h1 (by omega) hok hf
  · intro cenv hsteps hfail
    unfold clientStartupFail at hfail
    push_neg at hfail
    obtain ⟨h1, h2, h3, h4⟩ := hfail
    have hmain : clientMain cenv
        = ⟨0, (clientLoop cenv.steps).sends, (clientLoop cenv.steps).exchanges,
           some ((clientLoop cenv.steps).finalI - 1), true⟩ := by
      simp [clientMain, h1, h2, not_lt.mpr h3, not_lt.mpr h4]
    rw [hmain, hsteps]
    show some ((clientLoop env).finalI - 1) = some (clientLoop env).exchanges.length
    have hfin : (clientLoop env).finalI = 1 + (clientLoop env).exchanges.length :=
      clientLoopAux_finalI env NUM_MESSAGES 1
    rw [show (clientLoop env).finalI - 1 = (clientLoop env).exchanges.length by omega]

/-- Witness for C2 at the environment whose third send fails: two
exchanges complete and the summary prints 2. -/
theorem C2_witness :
    (clientLoop cliStepsFail3).exchanges.length = 3 - 1 ∧
    (clientMain cliEnvMidFail).summaryPrinted
      = some (clientLoop cliStepsFail3).exchanges.length :=
  ⟨(C2_client_message_loop cliStepsFail3).2.2.2.2.2.1 3 (by decide) (by decide)
      (by intro j hj1 hj2; interval_cases j <;> decide)
      (by decide),
   (C2_client_message_loop cliStepsFail3).2.2.2.2.2.2 cliEnvMidFail rfl (by decide)⟩

/-- Counterexample to claim C3 as stated: on a schedule whose single step
reads one byte successfully and then fails the echo send, the loop exits
even though none of the three listed conditions (shutdown flag observed,
zero-length read, negative-length read) holds; the exit reason is the
send failure, a fourth condition. -/
theorem C3_counterexample :
    (serverLoop true [stepSendFailA]).isExited = true ∧
    (serverLoop true [stepSendFailA]).reasonOpt = some .sendError ∧
    stepSendFailA.sigBefore = false ∧
    stepSendFailA.recvRes ≠ none ∧ stepSendFailA.recvRes ≠ some [] ∧
    ExitReason.sendError ≠ .shutdown ∧ ExitReason.sendError ≠ .peerClosed ∧
    ExitReason.sendError ≠ .recvError := by
  decide

/-- Claim C3 as amended: the server's echo loop exits on exactly four
conditions — the shutdown flag observed false at the top of an iteration,
a zero-length read, a negative-length read, or a negative echo send — and
on no other input; when the peer closes mid-loop the loop exits at that
very read and the statistics report carries the exact count of messages
exchanged before closure. -/
theorem C3_amended_loop_exit :
    (∀ steps : List ServerStep, (∀ t ∈ steps, ContinueStep t) →
        serverLoop true steps = .pending true steps.length (contExs steps)) ∧
    (∀ (pre post : List ServerStep) (s : ServerStep), (∀ t ∈ pre, ContinueStep t) →
        s.sigBefore = false → s.recvRes = some [] →
        serverLoop true (pre ++ s :: post) = .exited .peerClosed pre.length (contExs pre)) ∧
    (∀ (pre post : List ServerStep) (s : ServerStep), (∀ t ∈ pre, ContinueStep t) →
        s.sigBefore = false → s.recvRes = none →
        serverLoop true (pre ++ s :: post) = .exited .recvError pre.length (contExs pre)) ∧
    (∀ (pre post : List ServerStep) (s : ServerStep), (∀ t ∈ pre, ContinueStep t) →
        s.sigBefore = true →
        serverLoop true (pre ++ s :: post) = .exited .shutdown pre.length (contExs pre)) ∧
    (∀ (pre post : List ServerStep) (s : ServerStep) (b : Nat) (tl : List Nat),
        (∀ t ∈ pre, ContinueStep t) → s.sigBefore = false →
        s.recvRes = some (b :: tl) → s.sendOk = false →
        serverLoop true (pre ++ s :: post)
          = .exited .sendError (pre.length + 1)
              (contExs pre ++ [mkSrvExchange (b :: tl) false])) ∧
    (∀ env : ServerEnv, serverStartupOk env → ∀ (rsn : ExitReason) (c : Nat)
        (exs : List SrvExchange), serverLoop true env.steps = .exited rsn c exs →
        (serverMain env).statsPrinted = some c) := by
  refine ⟨?_, ?_, ?_, ?_, ?_, ?_⟩
  · intro steps h
    exact serverLoop_all_cont steps h
  · intro pre post s hcont h1 h2
    rw [serverLoop_append_cont pre (s :: post) hcont,
      serverLoop_cons_closed s post h1 h2, liftMany_exited]
    simp [contExs]
  · intro pre post s hcont h1 h2
    rw [serverLoop_append_cont pre (s :: post) hcont,
      serverLoop_cons_recvErr s post h1 h2, liftMany_exited]
    simp [contExs]
  · intro pre post s hcont h1
    rw [serverLoop_append_cont pre (s :: post) hcont,
      serverLoop_cons_sig s post h1, liftMany_exited]
    simp [contExs]
  · intro pre post s b tl hcont h1 h2 h3
    rw [serverLoop_append_cont pre (s :: post) hcont,
      serverLoop_cons_sendFail s post b tl h1 h2 h3, liftMany_exited]
    simp [contExs]
  · intro env hok rsn c exs hl
    rw [serverMain_exited env hok rsn c exs hl]

/-- Witness for the amended C3: after one successful exchange the peer
closes, the loop exits with reason peerClosed and count 1. -/
theorem C3_witness :
    serverLoop true ([stepHi] ++ stepClose :: [])
      = .exited .peerClosed (List.length [stepHi]) (contExs [stepHi]) :=
  C3_amended_loop_exit.2.1 [stepHi] [] stepClose (by decide) rfl rfl

/-- Claim C4: the client exits with code 1 exactly on a usage error,
resolution failure, socket-creation failure, or connect failure; on any
such startup failure no send is attempted; in every other case — mid-loop
send or receive failures included — it exits with code 0. -/
theorem C4_client_exit_codes :
    ∀ env : ClientEnv,
      ((clientMain env).exitCode = 1 ↔ clientStartupFail env) ∧
      (clientStartupFail env → (clientMain env).sends = 0) ∧
      (¬ clientStartupFail env → (clientMain env).exitCode = 0) := by
  intro env
  unfold clientMain clientStartupFail
  split_ifs with h1 h2 h3 h4
  · exact ⟨by simp [h1], fun _ => rfl, fun hc => absurd (Or.inl h1) hc⟩
  · exact ⟨by simp [h2], fun _ => rfl, fun hc => absurd (Or.inr (Or.inl h2)) hc⟩
  · exact ⟨by simp [h3], fun _ => rfl, fun hc => absurd (Or.inr (Or.inr (Or.inl h3))) hc⟩
  · exact ⟨by simp [h4], fun _ => rfl, fun hc => absurd (Or.inr (Or.inr (Or.inr h4))) hc⟩
  · refine ⟨by simp [h1, h2, h3, h4], ?_, fun _ => rfl⟩
    intro hc
    rcases hc with hc | hc | hc | hc
    · exact absurd hc h1
    · exact absurd hc h2
    · exact absurd hc h3
    · exact absurd hc h4

/-- Witness for C4: a failed connect gives exit code 1 with zero sends
attempted, and a mid-loop send failure still gives exit code 0. -/
theorem C4_witness :
    (clientMain cliEnvConnFail).exitCode = 1 ∧
    (clientMain cliEnvConnFail).sends = 0 ∧
    (clientMain cliEnvMidFail).exitCode = 0 :=
  ⟨(C4_client_exit_codes cliEnvConnFail).1.mpr (by decide),
   (C4_client_exit_codes cliEnvConnFail).2.1 (by decide),
   (C4_client_exit_codes cliEnvMidFail).2.2 (by decide)⟩

/-- Claim C5: the server exits with code 1 exactly on a usage error or a
socket, setsockopt, bind, listen or accept failure; after a successful
startup it exits with code 0 whenever its echo loop terminates, for any
exit reason, and has not exited while the loop is still running. -/
theorem C5_server_exit_codes :
    ∀ env : ServerEnv,
      ((serverMain env).exitCode = some 1 ↔
        (env.argc ≠ 2 ∨ env.socketRet < 0 ∨ env.setsockoptRet < 0 ∨
          env.bindRet < 0 ∨ env.listenRet < 0 ∨ env.acceptRet < 0)) ∧
      (serverStartupOk env → (serverLoop true env.steps).isExited = true →
        (serverMain env).exitCode = some 0) ∧
      (serverStartupOk env → (serverLoop true env.steps).isExited = false →
        (serverMain env).exitCode = none) := by
  intro env
  refine ⟨?_, ?_, ?_⟩
  · unfold serverMain
    split_ifs with h1 h2 h3 h4 h5 h6
    · simp [h1]
    · simp [h2]
    · simp [h3]
    · simp [h4]
    · simp [h5]
    · simp [h6]
    · cases hl : serverLoop true env.steps with
      | pending r c exs => simp [hl, h1, h2, h3, h4, h5, h6]
      | exited rsn c exs => simp [hl, h1, h2, h3, h4, h5, h6]
  · intro hok hex
    cases hl : serverLoop true env.steps with
    | pending r c exs =>
      rw [hl] at hex
      simp [ServerLoopResult.isExited] at hex
    | exited rsn c exs =>
      rw [serverMain_exited env hok rsn c exs hl]
  · intro hok hex
    cases hl : serverLoop true env.steps with
    | pending r c exs =>
      rw [serverMain_pending env hok r c exs hl]
    | exited rsn c exs =>
      rw [hl] at hex
      simp [ServerLoopResult.isExited] at hex

/-- Witness for C5: a bind failure gives exit code 1; a run whose peer
closes after one message gives exit code 0. -/
theorem C5_witness :
    (serverMain srvEnvBindFail).exitCode = some 1 ∧
    (serverMain srvEnvClose).exitCode = some 0 :=
  ⟨(C5_server_exit_codes srvEnvBindFail).1.mpr (by decide),
   (C5_server_exit_codes srvEnvClose).2.1 (by decide) (by decide)⟩

/-- Counterexample to claim C6 as stated: message_count is incremented
after the successful read but before the echo send, so on a schedule whose
single step reads two bytes and then fails to echo them the counter
reaches 1 although no exchange (a completed send followed by its completed
echo reply) succeeded. -/
theorem C6_counterexample :
    (serverLoop true [stepSendFailB]).count = 1 ∧
    srvSuccessCount (serverLoop true [stepSendFailB]) = 0 := by
  decide

/-- Claim C6 as amended: the message counter equals the number of
positive-length reads processed — it is incremented exactly once per
successfully received message, before the echo send is attempted, so a
message whose echo write fails is still counted; its final value is
exactly what the statistics print reports after a successful startup, and
the client's summary tally likewise equals the number of completed
exchanges. -/
theorem C6_amended_counter :
    (∀ (running : Bool) (steps : List ServerStep),
        (serverLoop running steps).count = (serverLoop running steps).exchanges.length) ∧
    (∀ env : ServerEnv, serverStartupOk env → ∀ (rsn : ExitReason) (c : Nat)
        (exs : List SrvExchange), serverLoop true env.steps = .exited rsn c exs →
        (serverMain env).statsPrinted = some c ∧ c = exs.length) ∧
    (∀ env : Nat → ClientStep,
        (clientLoop env).finalI - 1 = (clientLoop env).exchanges.length) := by
  refine ⟨serverLoop_count_eq, ?_, ?_⟩
  · intro env hok rsn c exs hl
    refine ⟨by rw [serverMain_exited env hok rsn c exs hl], ?_⟩
    have h := serverLoop_count_eq true env.steps
    rw [hl] at h
    simpa [ServerLoopResult.count, ServerLoopResult.exchanges] using h
  · intro env
    show (clientLoopAux env 1 NUM_MESSAGES).finalI - 1
        = (clientLoopAux env 1 NUM_MESSAGES).exchanges.length
    have h := clientLoopAux_finalI env NUM_MESSAGES 1
    omega

set_option maxRecDepth 400000 in
/-- Witness for the amended C6: on the run whose peer closes after one
message the statistics print reports 1, the length of the exchange list. -/
theorem C6_witness :
    (serverMain srvEnvClose).statsPrinted = some 1 ∧
    (1 : Nat) = [mkSrvExchange [104, 105] true].length :=
  C6_amended_counter.2.1 srvEnvClose (by decide) .peerClosed 1
    [mkSrvExchange [104, 105] true] (by decide)

/-- Claim C7: the receive buffer is zeroed by memset before every read in
both server and client, so the buffer a read starts from is all zeros and
the buffer contents after the read are the read's own bytes followed by
zeros: no byte of an earlier read is ever observed in a later exchange. -/
theorem C7_buffer_cleared :
    (∀ (running : Bool) (steps : List ServerStep), WFServerSteps steps →
        ∀ e ∈ (serverLoop running steps).exchanges,
          e.bufferBeforeRecv = List.replicate BUFFER_SIZE 0 ∧
          e.bufferAfterRecv
            = e.received ++ List.replicate (BUFFER_SIZE - e.received.length) 0) ∧
    (∀ env : Nat → ClientStep, WFClientEnv env →
        ∀ e ∈ (clientLoop env).exchanges,
          e.bufferBeforeRecv = List.replicate BUFFER_SIZE 0 ∧
          e.bufferAfterRecv
            = e.received ++ List.replicate (BUFFER_SIZE - e.received.length) 0) := by
  constructor
  · intro running steps hWF e he
    have h := serverLoop_exchanges_shape running steps hWF e he
    exact ⟨h.1, h.2.1⟩
  · intro env hWF e he
    obtain ⟨j, k, bs, -, -, -, hrc, rfl⟩ :=
      clientLoopAux_exchanges_shape env NUM_MESSAGES 1 e he
    have hlen : bs.length ≤ clientRecvCap := by
      have h := hWF j
      simpa [WFClientStep, hrc] using h
    have hlenB : bs.length ≤ BUFFER_SIZE :=
      le_trans hlen (by norm_num [clientRecvCap, BUFFER_SIZE])
    refine ⟨mkCliExchange_beforeBuf j k bs, ?_⟩
    rw [mkCliExchange_received, mkCliExchange_afterBuf j k bs hlenB]

set_option maxRecDepth 400000 in
/-- Witness for C7: concrete exchanges of both programs start from the
all-zero buffer. -/
theorem C7_witness :
    ((mkSrvExchange [104, 105] true).bufferBeforeRecv = List.replicate BUFFER_SIZE 0) ∧
    ((mkCliExchange 1 (clientMessage 1).length (clientMessage 1)).bufferBeforeRecv
        = List.replicate BUFFER_SIZE 0) :=
  ⟨(C7_buffer_cleared.1 true [stepHi] (by decide)
      (mkSrvExchange [104, 105] true) (by decide)).1,
   (C7_buffer_cleared.2 cliStepsOk cliStepsOk_WF
      (mkCliExchange 1 (clientMessage 1).length (clientMessage 1)) (by decide)).1⟩

/-- Counterexample to claim C8 as stated: both recv calls pass
BUFFER_SIZE - 1 = 1023 as their capacity, not the full buffer size of
1024, so no single read can return 1024 bytes. -/
theorem C8_counterexample :
    serverRecvCap ≠ BUFFER_SIZE ∧ clientRecvCap ≠ BUFFER_SIZE ∧
    serverRecvCap = 1023 ∧ clientRecvCap = 1023 ∧ BUFFER_SIZE = 1024 := by
  decide

set_option maxRecDepth 400000 in
/-- Claim C8 as amended: a single read by the server's echo loop or by the
client's reply read can return up to BUFFER_SIZE - 1 = 1023 bytes in one
call (one byte of the 1024-byte buffer is withheld as a string
terminator), never more, and a 1023-byte read is attainable. -/
theorem C8_amended_read_cap :
    serverRecvCap = BUFFER_SIZE - 1 ∧ clientRecvCap = BUFFER_SIZE - 1 ∧
    (∀ (running : Bool) (steps : List ServerStep), WFServerSteps steps →
        ∀ e ∈ (serverLoop running steps).exchanges,
          e.received.length ≤ BUFFER_SIZE - 1) ∧
    (∀ env : Nat → ClientStep, WFClientEnv env →
        ∀ e ∈ (clientLoop env).exchanges, e.received.length ≤ BUFFER_SIZE - 1) ∧
    (serverLoop true [⟨false, some (List.replicate (BUFFER_SIZE - 1) 7), false, true⟩]).exchanges.map
        (fun e => e.received.length) = [BUFFER_SIZE - 1] := by
  refine ⟨rfl, rfl, ?_, ?_, by decide⟩
  · intro running steps hWF e he
    exact (serverLoop_exchanges_shape running steps hWF e he).2.2.2
  · intro env hWF e he
    obtain ⟨j, k, bs, -, -, -, hrc, rfl⟩ :=
      clientLoopAux_exchanges_shape env NUM_MESSAGES 1 e he
    have hlen : bs.length ≤ clientRecvCap := by
      have h := hWF j
      simpa [WFClientStep, hrc] using h
    exact hlen

set_option maxRecDepth 400000 in
/-- Witness for the amended C8: the concrete two-byte read respects the
1023-byte bound. -/
theorem C8_witness :
    (mkSrvExchange [104, 105] true).received.length ≤ BUFFER_SIZE - 1 :=
  C8_amended_read_cap.2.2.1 true [stepHi] (by decide)
    (mkSrvExchange [104, 105] true) (by decide)

/-- Claim C9: a termination signal only clears the shutdown flag; the flag
is observed at the top of each echo-loop iteration, so whenever the flag
is false the loop exits immediately without another read, and a signal
delivered while a read is in flight lets that read and its echo complete,
after which the server exits the loop, prints the statistics with the full
count, closes both sockets and returns 0. -/
theorem C9_signal_graceful_shutdown :
    (∀ steps : List ServerStep, serverLoop false steps = .exited .shutdown 0 []) ∧
    (∀ (env : ServerEnv) (pre : List ServerStep) (s : ServerStep)
        (post : List ServerStep) (b : Nat) (tl : List Nat),
      serverStartupOk env → env.steps = pre ++ s :: post →
      (∀ t ∈ pre, ContinueStep t) → s.sigBefore = false → s.sigDuringRecv = true →
      s.sendOk = true → s.recvRes = some (b :: tl) →
      serverMain env = ⟨some 0, true, true, some (pre.length + 1),
        some (.exited .shutdown (pre.length + 1)
          (contExs pre ++ [mkSrvExchange (b :: tl) true]))⟩) := by
  constructor
  · exact serverLoop_false
  · intro env pre s post b tl hok hsteps hcont h1 hd h3 hr
    have hloop : serverLoop true (pre ++ s :: post)
        = .exited .shutdown (pre.length + 1)
            (contExs pre ++ [mkSrvExchange (b :: tl) true]) := by
      rw [serverLoop_append_cont pre (s :: post) hcont,
        serverLoop_cons_cont s post b tl h1 hr h3, hd]
      simp [serverLoop_false, ServerLoopResult.lift1, ServerLoopResult.liftMany, contExs]
    exact serverMain_exited env hok .shutdown (pre.length + 1)
      (contExs pre ++ [mkSrvExchange (b :: tl) true]) (by rw [hsteps]; exact hloop)

set_option maxRecDepth 400000 in
/-- Witness for C9: in srvEnvSig a signal arrives during the second read;
that read and its echo complete, the loop then shuts down with count 2,
the statistics print 2 and the process exits 0 with both sockets closed. -/
theorem C9_witness :
    serverMain srvEnvSig = ⟨some 0, true, true, some (List.length [stepHi] + 1),
      some (.exited .shutdown (List.length [stepHi] + 1)
        (contExs [stepHi] ++ [mkSrvExchange [120] true]))⟩ :=
  C9_signal_graceful_shutdown.2 srvEnvSig [stepHi] stepSigRead [stepRdErr] 120 []
    (by decide) rfl (by decide) rfl rfl rfl rfl

set_option maxRecDepth 400000 in
/-- Claim C10: in the client's message loop only a negative reply-read
return aborts the loop; a zero-length read is treated as a completed
exchange — the exchange is recorded with an empty received list (an empty
echo is printed), counted, and the loop goes on with the next send — as
the concrete run cliStepsEmpty2 shows by completing all five exchanges
against a peer that returns zero bytes for message 2. -/
theorem C10_client_zero_length_read :
    (∀ (env : Nat → ClientStep) (i r n : Nat),
        (env i).sendRes = some n → (env i).recvRes = some [] →
        clientLoopAux env i (r + 1)
          = ⟨(clientLoopAux env (i + 1) r).finalI,
             (clientLoopAux env (i + 1) r).sends + 1,
             mkCliExchange i n [] :: (clientLoopAux env (i + 1) r).exchanges⟩) ∧
    (∀ (env : Nat → ClientStep) (i r n : Nat),
        (env i).sendRes = some n → (env i).recvRes = none →
        clientLoopAux env i (r + 1) = ⟨i, 1, []⟩) ∧
    ((clientLoop cliStepsEmpty2).exchanges.length = NUM_MESSAGES ∧
      (clientLoop cliStepsEmpty2).finalI = NUM_MESSAGES + 1 ∧
      (clientLoop cliStepsEmpty2).exchanges.map CliExchange.received
        = [clientMessage 1, [], clientMessage 3, clientMessage 4, clientMessage 5]) := by
  refine ⟨?_, ?_, by decide, by decide, by decide⟩
  · intro env i r n h1 h2
    exact clientLoopAux_ok env i r n [] h1 h2
  · intro env i r n h1 h2
    exact clientLoopAux_recvFail env i r n h1 h2

/-- Witness for C10: the zero-length read of iteration 2 of cliStepsEmpty2
records an empty exchange and continues. -/
theorem C10_witness :
    clientLoopAux cliStepsEmpty2 2 (3 + 1)
      = ⟨(clientLoopAux cliStepsEmpty2 3 3).finalI,
         (clientLoopAux cliStepsEmpty2 3 3).sends + 1,
         mkCliExchange 2 (clientMessage 2).length []
           :: (clientLoopAux cliStepsEmpty2 3 3).exchanges⟩ :=
  C10_client_zero_length_read.1 cliStepsEmpty2 2 3 (clientMessage 2).length
    (by decide) (by decide)

end EchoDemo
